import Mathlib

/-!
Verification of the Slingshot-Gemini-Remix repository.

The development shallowly embeds the two source files:
  * `src/components/GeminiSlingshot.tsx` — grid model, match detection
    (`checkMatches` / `isNeighbor`), bet handling (`handleBet`,
    `handleBonusBuy`), the collision/append step of `onResults`, and the
    aim-clamping computation of `onResults`.
  * `src/services/geminiService.ts` — `parseSafeJson` (three-stage JSON
    recovery) and `getStrategicHint` (hint construction with fallback).

JavaScript numbers are modelled with `ℚ` (the multipliers and the payout
formula involve only exact decimal fractions in the ranges exercised) and
`ℤ` for the integer-valued session state; `Math.sqrt` is modelled with
`Real.sqrt`. Asynchrony, rendering, and the camera pipeline are outside
the model; the external AI service is a parameter (`Except` value) of the
hint client.
-/

namespace Slingshot

/-- The six bubble colors of the palette (keys of `MULTIPLIERS`). -/
inductive BubbleColor where
  | red
  | blue
  | green
  | yellow
  | purple
  | orange
deriving DecidableEq, Repr

/-- `MULTIPLIERS[color].mult` — the fixed payout-multiplier table from
`GeminiSlingshot.tsx` lines 25–32. -/
def multOf : BubbleColor → ℚ
  | .red => 1.2
  | .blue => 2.0
  | .green => 3.5
  | .yellow => 5.0
  | .purple => 10.0
  | .orange => 25.0

/-- A grid bubble: stable id, grid coordinates, pixel position, color and
the active flag (`Bubble` objects in the component). -/
structure Bubble where
  id : String
  row : ℤ
  col : ℤ
  x : ℚ
  y : ℚ
  color : BubbleColor
  active : Bool
deriving DecidableEq, Repr

/-- `isNeighbor(a, b)` — `Math.abs(b.row - a.row) <= 1 && Math.abs(b.col - a.col) <= 1`. -/
def isNeighbor (a b : Bubble) : Prop :=
  (b.row - a.row).natAbs ≤ 1 ∧ (b.col - a.col).natAbs ≤ 1

instance (a b : Bubble) : Decidable (isNeighbor a b) := by
  unfold isNeighbor; infer_instance

/-- `gameMode` values used by the modelled transitions. -/
inductive GameMode where
  | BETTING
  | PLAYING
deriving DecidableEq, Repr

/-- The session state touched by the modelled operations: the bubble list
and the casino state (`balance`, `currentBet`, `bonusTimer`, `lastWin`,
`isLoaded`, `gameMode`).  Rendering state (particles, availableColors,
tutorial, hand tracking) is presentational and not modelled. -/
structure GameState where
  bubbles : List Bubble
  balance : ℤ
  currentBet : ℤ
  bonusTimer : ℤ
  lastWin : ℤ
  isLoaded : Bool
  gameMode : GameMode
deriving DecidableEq, Repr

/-- One iteration-bounded unfolding of the `while (toCheck.length > 0)`
loop of `checkMatches`.  The JS array is used as a stack (`pop` from the
end, `push` appends): the model keeps the top of the stack at the head,
so a pushed batch of neighbors is reversed before being prepended.  The
`visited` set of ids and the accumulated `matches` are threaded through;
the fuel only bounds the iteration count (a sufficient bound is supplied
by `findCluster`). -/
def checkLoop (allB : List Bubble) (targetColor : BubbleColor) :
    Nat → List Bubble → List String → List Bubble → List Bubble
  | 0, _, _, ms => ms
  | _ + 1, [], _, ms => ms
  | fuel + 1, current :: rest, visited, ms =>
    if current.id ∈ visited then
      checkLoop allB targetColor fuel rest visited ms
    else
      let visited' := current.id :: visited
      if current.color = targetColor then
        let neighbors := allB.filter fun b =>
          decide (b.active = true ∧ b.id ∉ visited' ∧ isNeighbor current b)
        checkLoop allB targetColor fuel (neighbors.reverse ++ rest) visited' (ms ++ [current])
      else
        checkLoop allB targetColor fuel rest visited' ms

/-- The cluster computed by the search part of `checkMatches(startBubble)`
(lines 150–165): flood fill from `startBubble` over active bubbles of the
start color.  The fuel bound dominates the loop's true iteration count
(each pop either discards a visited id or adds a fresh id, and each fresh
id pushes at most `allB.length` elements). -/
def findCluster (allB : List Bubble) (start : Bubble) : List Bubble :=
  checkLoop allB start.color ((allB.length + 1) * (allB.length + 1) + 1) [start] [] []

/-- Deactivation of the matched bubbles (`matches.forEach(b => b.active = false)`),
modelled by id membership: the source mutates the matched objects in place,
and bubble ids are the identity key of the collection. -/
def deactivateIfIn (ids : List String) (b : Bubble) : Bubble :=
  if b.id ∈ ids then { b with active := false } else b

/-- `checkMatches(startBubble)` (lines 150–187): computes the cluster,
and when its size is at least 3 pays out
`Math.floor(currentBet * baseMult * bonusMult * (matches.length / 3))`,
deactivates the cluster, resets the bonus timer on an orange match, and
reports `true`; otherwise it changes nothing and reports `false`. -/
def checkMatches (s : GameState) (start : Bubble) : GameState × Bool :=
  let cluster := findCluster s.bubbles start
  if 3 ≤ cluster.length then
    let baseMult := multOf start.color
    let bonusMult : ℚ := if 0 < s.bonusTimer then 2 else 1
    let winAmount : ℤ :=
      ⌊(s.currentBet : ℚ) * baseMult * bonusMult * ((cluster.length : ℚ) / 3)⌋
    let ids := cluster.map Bubble.id
    ({ s with
        bubbles := s.bubbles.map (deactivateIfIn ids),
        bonusTimer := if start.color = .orange then 15 else s.bonusTimer,
        balance := s.balance + winAmount,
        lastWin := winAmount }, true)
  else
    (s, false)

/-- `handleBet` (lines 112–119): deducts the bet and arms the slingshot
only when the balance covers it. -/
def handleBet (s : GameState) : GameState :=
  if s.currentBet ≤ s.balance then
    { s with
        balance := s.balance - s.currentBet,
        isLoaded := true,
        gameMode := .PLAYING }
  else
    s

/-- `handleBonusBuy` (lines 121–130): cost is `currentBet * 100`; on
sufficient balance it deducts the cost, sets the 15-second timer and
clears `lastWin`, otherwise (alert aside) it changes nothing. -/
def handleBonusBuy (s : GameState) : GameState :=
  let cost := s.currentBet * 100
  if cost ≤ s.balance then
    { s with balance := s.balance - cost, bonusTimer := 15, lastWin := 0 }
  else
    s

/-- The bubble appended at the impact position in `onResults` (line 340):
placeholder grid coordinates (0,0), pixel position taken from the impact
point, the currently selected color, active. -/
def impactBubble (pt : ℚ × ℚ) (newId : String) (c : BubbleColor) : Bubble :=
  { id := newId, row := 0, col := 0, x := pt.1, y := pt.2, color := c, active := true }

/-- The collision branch of `onResults` (lines 338–345): append the new
bubble, resolve matches from it, and return to betting mode. -/
def handleCollision (s : GameState) (pt : ℚ × ℚ) (newId : String) (c : BubbleColor) :
    GameState × Bool :=
  let newB := impactBubble pt newId c
  let r := checkMatches { s with bubbles := s.bubbles ++ [newB] } newB
  ({ r.1 with gameMode := .BETTING }, r.2)

/-- `computePayout(clusterSize, color, betSize, bonusActive)` as the spec
states it: `floor(betSize * baseMultiplier(color) * (bonusActive ? 2 : 1)
* (clusterSize / 3))`, with the spec's six-color base-multiplier table. -/
def baseMultiplier : BubbleColor → ℚ
  | .red => 1.2
  | .blue => 2.0
  | .green => 3.5
  | .yellow => 5.0
  | .purple => 10.0
  | .orange => 25.0

/-- The spec's payout formula (section 4.4 of the spec). -/
def computePayout (clusterSize : Nat) (color : BubbleColor) (betSize : ℤ)
    (bonusActive : Bool) : ℤ :=
  ⌊(betSize : ℚ) * baseMultiplier color * (if bonusActive then 2 else 1) *
      ((clusterSize : ℚ) / 3)⌋

/-- `MAX_DRAG_DIST` (line 23). -/
def MAX_DRAG_DIST : ℝ := 180

/-- The aim-clamping computation of `onResults` (lines 303–309): from the
raw aim point `p` and the anchor, `d = Math.sqrt(dx*dx + dy*dy)`,
`scale = Math.min(d, MAX_DRAG_DIST) / (d || 1)`, and the ball is placed at
`anchor + (dx, dy) * scale`.  The JS idiom `d || 1` is the guard against a
zero distance. -/
noncomputable def clampAim (anchor p : ℝ × ℝ) : ℝ × ℝ :=
  let dx := p.1 - anchor.1
  let dy := p.2 - anchor.2
  let d := Real.sqrt (dx * dx + dy * dy)
  let scale := min d MAX_DRAG_DIST / (if d = 0 then 1 else d)
  (anchor.1 + dx * scale, anchor.2 + dy * scale)

/-! ## The hint client (`src/services/geminiService.ts`) -/

/-- The opening brace character, kept as a named constant. -/
def lbrace : Char := Char.ofNat 123

/-- The closing brace character, kept as a named constant. -/
def rbrace : Char := Char.ofNat 125

/-- JSON values as produced by `JSON.parse`.  Numeric literals are carried
as their lexemes: no verified claim observes a numeric value. -/
inductive Json where
  | null
  | bool (b : Bool)
  | num (lit : String)
  | str (s : String)
  | arr (elems : List Json)
  | obj (fields : List (String × Json))

/-- JSON whitespace accepted by `JSON.parse`. -/
def isJsonWs (c : Char) : Bool :=
  c = ' ' ∨ c = '\n' ∨ c = '\r' ∨ c = '\t'

/-- Drop leading JSON whitespace. -/
def skipWs : List Char → List Char
  | [] => []
  | c :: cs => if isJsonWs c then skipWs cs else c :: cs

/-- Value of a hex digit. -/
def hexVal (c : Char) : Option Nat :=
  if '0' ≤ c ∧ c ≤ '9' then some (c.toNat - '0'.toNat)
  else if 'a' ≤ c ∧ c ≤ 'f' then some (c.toNat - 'a'.toNat + 10)
  else if 'A' ≤ c ∧ c ≤ 'F' then some (c.toNat - 'A'.toNat + 10)
  else none

/-- Decimal digit test. -/
def isDigit (c : Char) : Bool := '0' ≤ c ∧ c ≤ '9'

/-- Longest digit run at the front of the input. -/
def takeDigits : List Char → List Char × List Char
  | [] => ([], [])
  | c :: cs =>
    if isDigit c then
      let (d, r) := takeDigits cs
      (c :: d, r)
    else ([], c :: cs)

/-- Body of a JSON string after the opening quote, per the JSON grammar
`JSON.parse` implements: escape sequences are decoded and a raw control
character (below U+0020, e.g. a literal newline) is a parse error — the
"unterminated string" failure mode the third recovery stage of
`parseSafeJson` targets. -/
def parseStringBody (fuel : Nat) (s : List Char) : Option (List Char × List Char) :=
  match fuel, s with
  | 0, _ => none
  | _ + 1, [] => none
  | fuel + 1, c :: cs =>
    if c = '"' then some ([], cs)
    else if c = '\\' then
      match cs with
      | [] => none
      | e :: cs2 =>
        let cont (ch : Char) (rest : List Char) : Option (List Char × List Char) :=
          (parseStringBody fuel rest).map fun sr => (ch :: sr.1, sr.2)
        if e = '"' then cont '"' cs2
        else if e = '\\' then cont '\\' cs2
        else if e = '/' then cont '/' cs2
        else if e = 'n' then cont '\n' cs2
        else if e = 'r' then cont '\r' cs2
        else if e = 't' then cont '\t' cs2
        else if e = 'b' then cont (Char.ofNat 8) cs2
        else if e = 'f' then cont (Char.ofNat 12) cs2
        else if e = 'u' then
          match cs2 with
          | h1 :: h2 :: h3 :: h4 :: cs3 =>
            match hexVal h1, hexVal h2, hexVal h3, hexVal h4 with
            | some a, some b, some c2, some d =>
              cont (Char.ofNat (((a * 16 + b) * 16 + c2) * 16 + d)) cs3
            | _, _, _, _ => none
          | _ => none
        else none
    else if c.toNat < 32 then none
    else (parseStringBody fuel cs).map fun sr => (c :: sr.1, sr.2)

/-- Fraction part of a JSON number (possibly empty). -/
def parseFrac : List Char → Option (List Char × List Char)
  | '.' :: r =>
    let (d, r2) := takeDigits r
    if d = [] then none else some ('.' :: d, r2)
  | s => some ([], s)

/-- Exponent part of a JSON number (possibly empty). -/
def parseExp : List Char → Option (List Char × List Char)
  | [] => some ([], [])
  | c :: r =>
    if c = 'e' ∨ c = 'E' then
      let (sgn, r2) : List Char × List Char :=
        match r with
        | x :: r2 => if x = '+' ∨ x = '-' then ([x], r2) else ([], x :: r2)
        | [] => ([], [])
      let (d, r3) := takeDigits r2
      if d = [] then none else some (c :: (sgn ++ d), r3)
    else some ([], c :: r)

/-- A JSON number literal (sign, integer part without leading zeros,
optional fraction and exponent); returns the lexeme and the rest. -/
def parseNumber (s : List Char) : Option (List Char × List Char) :=
  let (sgn, s1) : List Char × List Char :=
    match s with
    | '-' :: r => (['-'], r)
    | _ => ([], s)
  match s1 with
  | [] => none
  | c :: r =>
    if c = '0' then
      match parseFrac r with
      | none => none
      | some (f, r2) =>
        match parseExp r2 with
        | none => none
        | some (ex, r3) => some (sgn ++ '0' :: (f ++ ex), r3)
    else if isDigit c then
      let (d, r1) := takeDigits r
      match parseFrac r1 with
      | none => none
      | some (f, r2) =>
        match parseExp r2 with
        | none => none
        | some (ex, r3) => some (sgn ++ c :: (d ++ f ++ ex), r3)
    else none

mutual

/-- A JSON value at the front of the input (`JSON.parse` grammar). -/
def parseValue : Nat → List Char → Option (Json × List Char)
  | 0, _ => none
  | fuel + 1, s =>
    match skipWs s with
    | [] => none
    | c :: cs =>
      if c = lbrace then
        match skipWs cs with
        | c2 :: r => if c2 = rbrace then some (.obj [], r) else parseMembers fuel (c2 :: r) []
        | [] => none
      else if c = '[' then
        match skipWs cs with
        | ']' :: r => some (.arr [], r)
        | s2 => parseElems fuel s2 []
      else if c = '"' then
        (parseStringBody (cs.length + 1) cs).map fun sr => (.str (String.mk sr.1), sr.2)
      else if c = 't' then
        match cs with
        | 'r' :: 'u' :: 'e' :: r => some (.bool true, r)
        | _ => none
      else if c = 'f' then
        match cs with
        | 'a' :: 'l' :: 's' :: 'e' :: r => some (.bool false, r)
        | _ => none
      else if c = 'n' then
        match cs with
        | 'u' :: 'l' :: 'l' :: r => some (.null, r)
        | _ => none
      else
        (parseNumber (c :: cs)).map fun nr => (.num (String.mk nr.1), nr.2)

/-- Members of a JSON object after the opening brace (at least one). -/
def parseMembers : Nat → List Char → List (String × Json) → Option (Json × List Char)
  | 0, _, _ => none
  | fuel + 1, s, acc =>
    match skipWs s with
    | '"' :: cs =>
      match parseStringBody (cs.length + 1) cs with
      | none => none
      | some (key, r1) =>
        match skipWs r1 with
        | ':' :: r2 =>
          match parseValue fuel r2 with
          | none => none
          | some (v, r3) =>
            let acc2 := acc ++ [(String.mk key, v)]
            match skipWs r3 with
            | c4 :: r4 =>
              if c4 = ',' then parseMembers fuel r4 acc2
              else if c4 = rbrace then some (.obj acc2, r4)
              else none
            | [] => none
        | _ => none
    | _ => none

/-- Elements of a JSON array after the opening bracket (at least one). -/
def parseElems : Nat → List Char → List Json → Option (Json × List Char)
  | 0, _, _ => none
  | fuel + 1, s, acc =>
    match parseValue fuel s with
    | none => none
    | some (v, r1) =>
      let acc2 := acc ++ [v]
      match skipWs r1 with
      | ',' :: r2 => parseElems fuel r2 acc2
      | ']' :: r2 => some (.arr acc2, r2)
      | _ => none

end

/-- `JSON.parse`: a single JSON value covering the whole input (modulo
surrounding whitespace).  The fuel `2 * length + 4` dominates the nesting
depth of the recursion (at least one input character is consumed per two
fuel steps). -/
def jsonParse (t : String) : Option Json :=
  let cs := t.toList
  match parseValue (2 * cs.length + 4) cs with
  | some (j, rest) => if skipWs rest = [] then some j else none
  | none => none

/-- The extraction `text.match(/\x7b[\s\S]*\x7d/)` of `parseSafeJson`:
the (greedy) match runs from the first opening brace to the last closing
brace of the text; no match when either is missing. -/
def extractBraces (t : String) : Option String :=
  let cs := t.toList
  let fromBrace := cs.dropWhile fun c => c != lbrace
  match fromBrace with
  | [] => none
  | _ =>
    let revTrim := fromBrace.reverse.dropWhile fun c => c != rbrace
    match revTrim with
    | [] => none
    | _ => some (String.mk revTrim.reverse)

/-- A character the JS regex `.` (without the `s` flag) matches. -/
def isDotChar (c : Char) : Bool :=
  !(c = '\n' ∨ c = '\r' ∨ c = Char.ofNat 8232 ∨ c = Char.ofNat 8233)

/-- The lookbehind `(?<=:.*")` of the third recovery stage: a match of
`:.*"` ends immediately before position `i` — some colon at `k`, then
non-line-terminator characters, then a double quote at `i - 1`. -/
def lookbehindColonQuote (cs : List Char) (i : Nat) : Bool :=
  decide (1 ≤ i) && (cs.getD (i - 1) ' ' == '"') &&
    ((List.range (i - 1)).any fun k =>
      (cs.getD k ' ' == ':') &&
        ((List.range (i - 1)).all fun m =>
          decide (m ≤ k) || isDotChar (cs.getD m ' ')))

/-- The replacement `.replace(/(?<=:.*")(\n|\r)/g, ' ')` of the third
recovery stage of `parseSafeJson`: every newline or carriage return whose
lookbehind matches (against the original text) becomes a space. -/
def fixNewlines (t : String) : String :=
  let cs := t.toList
  String.mk ((List.range cs.length).map fun i =>
    let c := cs.getD i ' '
    if (c == '\n' || c == '\r') && lookbehindColonQuote cs i then ' ' else c)

/-- `parseSafeJson(text)` (geminiService.ts lines 28–54): direct
`JSON.parse`; on failure, extract the brace-delimited substring and parse
it; on failure again, parse it with lookbehind-guarded newline escaping;
any remaining failure propagates as an error (the thrown exception, which
`getStrategicHint` catches).  The `sanitized` binding of line 41 is dead
code in the source and has no counterpart here. -/
def parseSafeJson (t : String) : Except Unit Json :=
  match jsonParse t with
  | some j => .ok j
  | none =>
    match extractBraces t with
    | none => .error ()
    | some m =>
      match jsonParse m with
      | some j => .ok j
      | none =>
        match jsonParse (fixNewlines m) with
        | some j => .ok j
        | none => .error ()

/-- Zero test of a JSON numeric literal (JS falsiness of its value): the
mantissa has no nonzero digit. -/
def numLexemeIsZero (lit : String) : Bool :=
  (lit.toList.takeWhile fun c => c != 'e' && c != 'E').all fun c =>
    c == '0' || c == '-' || c == '.'

/-- JS falsiness of a JSON runtime value (`undefined` is represented as a
missing `Option`, see `jsOr`). -/
def jsFalsy : Json → Bool
  | .null => true
  | .bool b => !b
  | .str s => s == ""
  | .num lit => numLexemeIsZero lit
  | .arr _ => false
  | .obj _ => false

/-- The JS `x || dflt` used for the hint fields: the default replaces a
missing or falsy field value. -/
def jsOr (v : Option Json) (dflt : Json) : Json :=
  match v with
  | none => dflt
  | some j => if jsFalsy j then dflt else j

/-- JS property access `json.name`: `none` models `undefined` (missing
field or access on a non-object); of duplicate keys the last wins, as in
a JS object literal built by `JSON.parse`. -/
def getField : Json → String → Option Json
  | .obj fs, name => ((fs.filter fun p => p.1 == name).getLast?).map Prod.snd
  | _, _ => none

/-- `toLowerCase()` on the characters of a string (ASCII case folding,
which covers the palette keys the prompt enumerates). -/
def jsToLowerCase (s : String) : String :=
  String.mk (s.toList.map Char.toLower)

/-- The optional chain `json.recommendedColor?.toLowerCase()`: `undefined`
on a missing or null field, the lowercased string on a string field, and a
thrown `TypeError` (an error here) on any other value, which
`getStrategicHint` catches. -/
def optChainToLower : Option Json → Except Unit (Option String)
  | none => .ok none
  | some .null => .ok none
  | some (.str s) => .ok (some (jsToLowerCase s))
  | some _ => .error ()

/-- The hint object (`StrategicHint` of `types.ts`, whose declaration is
outside `src/`; its shape is fixed by the object literals of
`getStrategicHint`).  `message` and `rationale` carry the JS values
assigned by the source; `targetRow`/`targetCol` carry the raw parsed
fields (the source applies the non-throwing `Number()` coercion to them,
which no verified claim observes). -/
structure StrategicHint where
  message : Json
  rationale : Json
  targetRow : Option Json
  targetCol : Option Json
  recommendedColor : Option String
  payoutPotential : Option Json

/-- The fallback hint of the `catch` branch of `getStrategicHint`. -/
def fallbackHint : StrategicHint :=
  { message := .str "Scanning for ROI...",
    rationale := .str "Data synchronization in progress. Maintain defensive posture.",
    targetRow := none,
    targetCol := none,
    recommendedColor := none,
    payoutPotential := none }

/-- The successful-return object of `getStrategicHint` (lines 144–154),
built from the parsed JSON; the optional chain on `recommendedColor` can
throw. -/
def buildHint (j : Json) : Except Unit StrategicHint := do
  let rc ← optChainToLower (getField j "recommendedColor")
  .ok {
    message := jsOr (getField j "message") (.str "Target Identified"),
    rationale := jsOr (getField j "rationale") (.str "Optimal trajectory calculated."),
    targetRow := getField j "targetRow",
    targetCol := getField j "targetCol",
    recommendedColor := rc,
    payoutPotential := some (jsOr (getField j "payoutPotential") (.str "Variable ROI")) }

/-- `TargetCandidate` of `geminiService.ts` (lines 14–22). -/
structure TargetCandidate where
  id : String
  color : String
  size : Nat
  row : ℤ
  col : ℤ
  multiplier : ℚ
  description : String

/-- `getStrategicHint(imageBase64, validTargets, dangerRow, isBonus)`
(lines 56–165).  The external AI call is a parameter: `serviceResult` is
either a transport/service error or the raw response text.  An empty
response text falls back to `"\x7b\x7d"` (`response.text || "\x7b\x7d"`,
line 140); any error — transport, parse, or the optional-chain TypeError —
is caught and yields the fallback hint, never a thrown error.  The prompt
and debug assembly (latency, screenshots) do not influence the hint and
are not modelled. -/
def getStrategicHint (imageBase64 : String) (validTargets : List TargetCandidate)
    (dangerRow : ℤ) (isBonus : Bool) (serviceResult : Except String String) :
    StrategicHint :=
  match serviceResult with
  | .error _ => fallbackHint
  | .ok text =>
    let raw := if text = "" then "\x7b\x7d" else text
    match parseSafeJson raw with
    | .error _ => fallbackHint
    | .ok j =>
      match buildHint j with
      | .error _ => fallbackHint
      | .ok h => h

/-! ## Derived definitions for the verified properties -/

/-- A balance-mutating operation of the session: placing a bet, buying the
bonus, or resolving a match from a start bubble. -/
inductive GameOp where
  | placeBet
  | bonusBuy
  | resolveMatch (start : Bubble)

/-- Apply one operation to the session state. -/
def applyOp (s : GameState) : GameOp → GameState
  | .placeBet => handleBet s
  | .bonusBuy => handleBonusBuy s
  | .resolveMatch start => (checkMatches s start).1

/-- Reachability strictly through same-color cells: every step leaves a
cell that carries the start bubble's color and enters an active member of
the collection adjacent to it.  A chain witnessing `ClusterReach` never
passes through a differently colored bubble. -/
inductive ClusterReach (bs : List Bubble) (start : Bubble) : Bubble → Prop
  | base : ClusterReach bs start start
  | step {a b : Bubble} : ClusterReach bs start a → a.color = start.color →
      b ∈ bs → b.active = true → isNeighbor a b → ClusterReach bs start b

/-- `b` corresponds to `a` across a match resolution with matched-id list
`ids`: identity, grid coordinates, pixel position and color are unchanged,
and the active flag is unchanged unless `a` was matched. -/
def preservesBubble (ids : List String) (o n : Bubble) : Prop :=
  n.id = o.id ∧ n.row = o.row ∧ n.col = o.col ∧ n.x = o.x ∧ n.y = o.y
    ∧ n.color = o.color ∧ (o.id ∉ ids → n.active = o.active)

/-! ## Supporting lemmas -/

/-- The code's multiplier table (`MULTIPLIERS[c].mult`) and the spec's
`baseMultiplier` table coincide. -/
lemma multOf_eq_baseMultiplier (c : BubbleColor) : multOf c = baseMultiplier c := by
  cases c <;> rfl

/-- Every base multiplier is nonnegative. -/
lemma multOf_nonneg (c : BubbleColor) : 0 ≤ multOf c := by
  cases c <;> norm_num [multOf]

/-- Invariant of the `checkMatches` search loop: if every stacked bubble is
active and (when of the target color) reachable through same-color cells,
and every accumulated match is active, of the target color and so
reachable, then so is every member of the final match list. -/
lemma checkLoop_members (bs : List Bubble) (start : Bubble) :
    ∀ (fuel : Nat) (toCheck : List Bubble) (visited : List String) (ms : List Bubble),
      (∀ x ∈ toCheck, x.active = true ∧
        (x.color = start.color → ClusterReach bs start x)) →
      (∀ x ∈ ms, x.active = true ∧ x.color = start.color ∧ ClusterReach bs start x) →
      ∀ b ∈ checkLoop bs start.color fuel toCheck visited ms,
        b.active = true ∧ b.color = start.color ∧ ClusterReach bs start b := by
  intro fuel
  induction fuel with
  | zero =>
    intro toCheck visited ms _ hms b hb
    exact hms b (by simpa [checkLoop] using hb)
  | succ fuel ih =>
    intro toCheck visited ms hstack hms b hb
    match toCheck with
    | [] => exact hms b (by simpa [checkLoop] using hb)
    | current :: rest =>
      simp only [checkLoop] at hb
      by_cases hv : current.id ∈ visited
      · rw [if_pos hv] at hb
        exact ih rest visited ms (fun x hx => hstack x (List.mem_cons_of_mem _ hx)) hms b hb
      · rw [if_neg hv] at hb
        by_cases hc : current.color = start.color
        · rw [if_pos hc] at hb
          refine ih _ _ _ ?_ ?_ b hb
          · intro x hx
            rcases List.mem_append.mp hx with hx1 | hx2
            · have hx1 := List.mem_reverse.mp hx1
              have := List.mem_filter.mp hx1
              have hprops := of_decide_eq_true this.2
              refine ⟨hprops.1, fun hcx => ?_⟩
              exact ClusterReach.step ((hstack current (List.mem_cons_self _ _)).2 hc)
                hc this.1 hprops.1 hprops.2.2
            · exact hstack x (List.mem_cons_of_mem _ hx2)
          · intro x hx
            rcases List.mem_append.mp hx with hx1 | hx2
            · exact hms x hx1
            · have hx2 : x = current := by simpa using hx2
              subst hx2
              exact ⟨(hstack x (List.mem_cons_self _ _)).1, hc,
                (hstack x (List.mem_cons_self _ _)).2 hc⟩
        · rw [if_neg hc] at hb
          exact ih rest _ ms (fun x hx => hstack x (List.mem_cons_of_mem _ hx)) hms b hb

/-- Deactivation maps every bubble to a correspondent. -/
lemma forall2_deactivateIfIn (ids : List String) (l : List Bubble) :
    List.Forall₂ (preservesBubble ids) l (l.map (deactivateIfIn ids)) := by
  induction l with
  | nil => simp
  | cons a l ih =>
    simp only [List.map_cons]
    refine List.Forall₂.cons ?_ ih
    unfold preservesBubble deactivateIfIn
    by_cases h : a.id ∈ ids <;> simp [h]

/-- The bubble list after `checkMatches` corresponds pointwise to the one
before it. -/
lemma checkMatches_frame (s : GameState) (start : Bubble) :
    List.Forall₂ (preservesBubble ((findCluster s.bubbles start).map Bubble.id))
      s.bubbles (checkMatches s start).1.bubbles := by
  simp only [checkMatches]
  split
  · exact forall2_deactivateIfIn _ _
  · exact List.forall₂_same.mpr fun x _ => ⟨rfl, rfl, rfl, rfl, rfl, rfl, fun _ => rfl⟩

/-! ## Claims -/

/-- C1: for every match resolution on a cluster of size at least 3, the
credits awarded (`lastWin`, also added to the balance) equal
`floor(currentBet * baseMultiplier(color) * (bonusActive ? 2 : 1) * (clusterSize / 3))`
with the fixed six-color table, and in particular bet 10 / red / no bonus /
size 3 yields 12, and bet 10 / orange / bonus / size 6 yields 1000. -/
theorem checkMatches_payout_formula (s : GameState) (start : Bubble)
    (h : 3 ≤ (findCluster s.bubbles start).length) :
    ((checkMatches s start).1.lastWin =
        computePayout (findCluster s.bubbles start).length start.color s.currentBet
          (decide (0 < s.bonusTimer)))
    ∧ ((checkMatches s start).1.balance =
        s.balance +
          computePayout (findCluster s.bubbles start).length start.color s.currentBet
            (decide (0 < s.bonusTimer)))
    ∧ baseMultiplier .red = 1.2 ∧ baseMultiplier .blue = 2.0
    ∧ baseMultiplier .green = 3.5 ∧ baseMultiplier .yellow = 5.0
    ∧ baseMultiplier .purple = 10.0 ∧ baseMultiplier .orange = 25.0
    ∧ computePayout 3 .red 10 false = 12
    ∧ computePayout 6 .orange 10 true = 1000 := by
  refine ⟨?_, ?_, rfl, rfl, rfl, rfl, rfl, rfl,
    by norm_num [computePayout, baseMultiplier],
    by norm_num [computePayout, baseMultiplier]⟩ <;>
  · simp only [checkMatches, if_pos h, computePayout, multOf_eq_baseMultiplier]
    by_cases hb : 0 < s.bonusTimer <;> simp [hb]

/-- C1 witness: a concrete three-bubble red cluster at bet 10 with the
bonus inactive pays 12 credits. -/
theorem checkMatches_payout_formula_witness :
    (checkMatches
        { bubbles := [⟨"a", 0, 0, 0, 0, .red, true⟩, ⟨"b", 0, 1, 0, 0, .red, true⟩,
            ⟨"c", 0, 2, 0, 0, .red, true⟩],
          balance := 1000, currentBet := 10, bonusTimer := 0, lastWin := 0,
          isLoaded := true, gameMode := .PLAYING }
        ⟨"a", 0, 0, 0, 0, .red, true⟩).1.lastWin = 12 := by
  have h := (checkMatches_payout_formula
    { bubbles := [⟨"a", 0, 0, 0, 0, .red, true⟩, ⟨"b", 0, 1, 0, 0, .red, true⟩,
        ⟨"c", 0, 2, 0, 0, .red, true⟩],
      balance := 1000, currentBet := 10, bonusTimer := 0, lastWin := 0,
      isLoaded := true, gameMode := .PLAYING }
    ⟨"a", 0, 0, 0, 0, .red, true⟩ (by decide)).1
  rw [h]
  norm_num [computePayout, baseMultiplier, show (findCluster
      [⟨"a", 0, 0, 0, 0, .red, true⟩, ⟨"b", 0, 1, 0, 0, .red, true⟩,
        ⟨"c", 0, 2, 0, 0, .red, true⟩] ⟨"a", 0, 0, 0, 0, .red, true⟩).length = 3
    from by decide]

/-- C3: a cluster of size below 3 makes `checkMatches` a no-op reporting
no match (state returned unchanged: no active flag, balance, last win or
bonus timer change), and on size at least 3 every cell of the cluster is
deactivated. -/
theorem checkMatches_small_cluster_noop (s : GameState) (start : Bubble) :
    ((findCluster s.bubbles start).length < 3 → checkMatches s start = (s, false))
    ∧ (3 ≤ (findCluster s.bubbles start).length →
        ∀ b ∈ (checkMatches s start).1.bubbles,
          b.id ∈ (findCluster s.bubbles start).map Bubble.id → b.active = false) := by
  constructor
  · intro hlt
    simp only [checkMatches]
    rw [if_neg (by omega)]
  · intro h3 b hb hid
    simp only [checkMatches, if_pos h3] at hb
    obtain ⟨a, ha, rfl⟩ := List.mem_map.mp hb
    by_cases hmem : a.id ∈ (findCluster s.bubbles start).map Bubble.id
    · simp [deactivateIfIn, hmem]
    · simp only [deactivateIfIn, if_neg hmem] at hid
      exact absurd hid hmem

/-- C6: a bet with balance below the stake is rejected with the state
unchanged; a bonus buy with balance below `100 * bet` is rejected with the
state unchanged; a successful bonus buy deducts exactly the cost, sets the
timer to 15 immediately and leaves the loaded flag alone. -/
theorem bet_and_bonus_guards (s : GameState) :
    (s.balance < s.currentBet → handleBet s = s)
    ∧ (s.balance < s.currentBet * 100 → handleBonusBuy s = s)
    ∧ (s.currentBet * 100 ≤ s.balance →
        (handleBonusBuy s).balance = s.balance - s.currentBet * 100
        ∧ (handleBonusBuy s).bonusTimer = 15
        ∧ (handleBonusBuy s).lastWin = 0
        ∧ (handleBonusBuy s).isLoaded = s.isLoaded
        ∧ (handleBonusBuy s).bubbles = s.bubbles) := by
  refine ⟨fun h => ?_, fun h => ?_, fun h => ?_⟩
  · rw [handleBet, if_neg (by omega)]
  · simp only [handleBonusBuy]
    rw [if_neg (by omega)]
  · simp only [handleBonusBuy]
    rw [if_pos (by omega)]
    exact ⟨rfl, rfl, rfl, rfl, rfl⟩

/-- C7: a resolved match (cluster size at least 3) on orange sets the
bonus timer to 15 whatever its prior value and the cluster's size; a
resolved match on any other color leaves the timer untouched. -/
theorem orange_match_sets_bonus_timer (s : GameState) (start : Bubble)
    (h3 : 3 ≤ (findCluster s.bubbles start).length) :
    (start.color = .orange → (checkMatches s start).1.bonusTimer = 15)
    ∧ (start.color ≠ .orange → (checkMatches s start).1.bonusTimer = s.bonusTimer) := by
  constructor <;> intro hc <;> simp [checkMatches, if_pos h3, hc]

/-- C7 witness: a concrete orange three-cluster resolved with 7 seconds
left on the timer resets it to 15, and a red one leaves it at 7. -/
theorem orange_match_sets_bonus_timer_witness :
    ((checkMatches
        { bubbles := [⟨"a", 0, 0, 0, 0, .orange, true⟩, ⟨"b", 0, 1, 0, 0, .orange, true⟩,
            ⟨"c", 0, 2, 0, 0, .orange, true⟩],
          balance := 1000, currentBet := 10, bonusTimer := 7, lastWin := 0,
          isLoaded := true, gameMode := .PLAYING }
        ⟨"a", 0, 0, 0, 0, .orange, true⟩).1.bonusTimer = 15)
    ∧ ((checkMatches
        { bubbles := [⟨"a", 0, 0, 0, 0, .red, true⟩, ⟨"b", 0, 1, 0, 0, .red, true⟩,
            ⟨"c", 0, 2, 0, 0, .red, true⟩],
          balance := 1000, currentBet := 10, bonusTimer := 7, lastWin := 0,
          isLoaded := true, gameMode := .PLAYING }
        ⟨"a", 0, 0, 0, 0, .red, true⟩).1.bonusTimer = 7) :=
  ⟨(orange_match_sets_bonus_timer _ _ (by decide)).1 rfl,
   (orange_match_sets_bonus_timer _ _ (by decide)).2 (by decide)⟩

/-- C8: the balance stays nonnegative under every balance-mutating
operation — the guarded bet deduction, the guarded bonus purchase, and the
payout addition (whose win amount is nonnegative). -/
theorem balance_nonneg_preserved (s : GameState) (op : GameOp)
    (hbal : 0 ≤ s.balance) (hbet : 0 ≤ s.currentBet) :
    0 ≤ (applyOp s op).balance := by
  cases op with
  | placeBet =>
    rw [applyOp, handleBet]
    split
    · show 0 ≤ s.balance - s.currentBet
      omega
    · exact hbal
  | bonusBuy =>
    simp only [applyOp, handleBonusBuy]
    split
    · show 0 ≤ s.balance - s.currentBet * 100
      omega
    · exact hbal
  | resolveMatch start =>
    simp only [applyOp, checkMatches]
    split
    · show 0 ≤ s.balance + ⌊(s.currentBet : ℚ) * multOf start.color *
        (if 0 < s.bonusTimer then (2 : ℚ) else 1) *
        (((findCluster s.bubbles start).length : ℚ) / 3)⌋
      have hq : (0 : ℚ) ≤ (s.currentBet : ℚ) * multOf start.color *
          (if 0 < s.bonusTimer then (2 : ℚ) else 1) *
          (((findCluster s.bubbles start).length : ℚ) / 3) := by
        have h1 : (0 : ℚ) ≤ (s.currentBet : ℚ) := by exact_mod_cast hbet
        have h2 := multOf_nonneg start.color
        have h3 : (0 : ℚ) ≤ (if 0 < s.bonusTimer then (2 : ℚ) else 1) := by
          split <;> norm_num
        have h4 : (0 : ℚ) ≤ (((findCluster s.bubbles start).length : ℚ) / 3) := by
          positivity
        exact mul_nonneg (mul_nonneg (mul_nonneg h1 h2) h3) h4
      have hw : (0 : ℤ) ≤ ⌊(s.currentBet : ℚ) * multOf start.color *
          (if 0 < s.bonusTimer then (2 : ℚ) else 1) *
          (((findCluster s.bubbles start).length : ℚ) / 3)⌋ :=
        Int.le_floor.mpr (by simpa using hq)
      omega
    · exact hbal

/-- C8 witness: from a concrete nonnegative state, placing a bet keeps the
balance nonnegative. -/
theorem balance_nonneg_preserved_witness :
    0 ≤ (applyOp
        { bubbles := [], balance := 5, currentBet := 10, bonusTimer := 0, lastWin := 0,
          isLoaded := false, gameMode := .BETTING } GameOp.placeBet).balance :=
  balance_nonneg_preserved _ _ (by decide) (by decide)

/-- C2: every member of the cluster `checkMatches` computes from an active
start bubble is an active bubble of the start bubble's color, reachable
from the start strictly through same-color cells — a differently colored
bubble is never included and never crossed. -/
theorem findCluster_members_sound (bs : List Bubble) (start : Bubble)
    (hactive : start.active = true) :
    ∀ b ∈ findCluster bs start,
      b.active = true ∧ b.color = start.color ∧ ClusterReach bs start b := by
  apply checkLoop_members
  · intro x hx
    have hx : x = start := by simpa using hx
    subst hx
    exact ⟨hactive, fun _ => ClusterReach.base⟩
  · intro x hx
    exact absurd hx (List.not_mem_nil x)

/-- C2 witness: in a three-bubble red row the far bubble is found active,
red, and connected to the start through same-color cells. -/
theorem findCluster_members_sound_witness :
    (⟨"c", 0, 2, 0, 0, .red, true⟩ : Bubble).active = true
    ∧ (⟨"c", 0, 2, 0, 0, .red, true⟩ : Bubble).color =
        (⟨"a", 0, 0, 0, 0, .red, true⟩ : Bubble).color
    ∧ ClusterReach
        [⟨"a", 0, 0, 0, 0, .red, true⟩, ⟨"b", 0, 1, 0, 0, .red, true⟩,
          ⟨"c", 0, 2, 0, 0, .red, true⟩]
        ⟨"a", 0, 0, 0, 0, .red, true⟩ ⟨"c", 0, 2, 0, 0, .red, true⟩ :=
  findCluster_members_sound
    [⟨"a", 0, 0, 0, 0, .red, true⟩, ⟨"b", 0, 1, 0, 0, .red, true⟩,
      ⟨"c", 0, 2, 0, 0, .red, true⟩]
    ⟨"a", 0, 0, 0, 0, .red, true⟩ rfl
    ⟨"c", 0, 2, 0, 0, .red, true⟩ (by decide)

/-- C9: no operation removes a bubble.  Match resolution maps the bubble
list pointwise — same length, each bubble keeping id, grid coordinates,
pixel position and color, and every non-matched bubble keeping its active
flag — and a collision appends exactly one bubble (the impact bubble)
before resolving matches, again only deactivating. -/
theorem bubbles_never_removed (s : GameState) (start : Bubble) (pt : ℚ × ℚ)
    (newId : String) (c : BubbleColor) :
    List.Forall₂ (preservesBubble ((findCluster s.bubbles start).map Bubble.id))
      s.bubbles (checkMatches s start).1.bubbles
    ∧ (checkMatches s start).1.bubbles.length = s.bubbles.length
    ∧ List.Forall₂
        (preservesBubble ((findCluster (s.bubbles ++ [impactBubble pt newId c])
            (impactBubble pt newId c)).map Bubble.id))
        (s.bubbles ++ [impactBubble pt newId c])
        (handleCollision s pt newId c).1.bubbles
    ∧ (handleCollision s pt newId c).1.bubbles.length = s.bubbles.length + 1 := by
  have h1 := checkMatches_frame s start
  have h3 : List.Forall₂
      (preservesBubble ((findCluster (s.bubbles ++ [impactBubble pt newId c])
          (impactBubble pt newId c)).map Bubble.id))
      (s.bubbles ++ [impactBubble pt newId c])
      (handleCollision s pt newId c).1.bubbles :=
    checkMatches_frame { s with bubbles := s.bubbles ++ [impactBubble pt newId c] }
      (impactBubble pt newId c)
  refine ⟨h1, h1.length_eq.symm, h3, ?_⟩
  have := h3.length_eq.symm
  simpa using this

/-- C4: for every gesture aim point, the clamped ball position lies on the
ray from the anchor through the raw aim point (direction preserved, with a
nonnegative scale), its distance from the anchor equals
`min(rawDistance, MAX_DRAG_DIST)`, and in particular it never exceeds the
180-pixel maximum drag distance. -/
theorem clampAim_ray_and_max_dist (ax ay px py : ℝ) :
    (∃ t : ℝ, 0 ≤ t ∧
      (clampAim (ax, ay) (px, py)).1 - ax = t * (px - ax) ∧
      (clampAim (ax, ay) (px, py)).2 - ay = t * (py - ay))
    ∧ Real.sqrt (((clampAim (ax, ay) (px, py)).1 - ax) ^ 2 +
          ((clampAim (ax, ay) (px, py)).2 - ay) ^ 2) =
        min (Real.sqrt ((px - ax) ^ 2 + (py - ay) ^ 2)) MAX_DRAG_DIST
    ∧ Real.sqrt (((clampAim (ax, ay) (px, py)).1 - ax) ^ 2 +
          ((clampAim (ax, ay) (px, py)).2 - ay) ^ 2) ≤ MAX_DRAG_DIST := by
  have hmax : (0 : ℝ) ≤ MAX_DRAG_DIST := by norm_num [MAX_DRAG_DIST]
  simp only [clampAim]
  set dx := px - ax with hdx
  set dy := py - ay with hdy
  set d := Real.sqrt (dx * dx + dy * dy) with hd
  have hd0 : 0 ≤ d := Real.sqrt_nonneg _
  have hpow : dx * dx + dy * dy = dx ^ 2 + dy ^ 2 := by ring
  by_cases h0 : d = 0
  · have h1 : Real.sqrt (dx * dx + dy * dy) = 0 := by rw [← hd]; exact h0
    have harg : dx * dx + dy * dy ≤ 0 := Real.sqrt_eq_zero'.mp h1
    have hdx0 : dx = 0 := by nlinarith [mul_self_nonneg dx, mul_self_nonneg dy]
    have hdy0 : dy = 0 := by nlinarith [mul_self_nonneg dx, mul_self_nonneg dy]
    rw [if_pos h0]
    refine ⟨⟨0, le_refl 0, by rw [hdx0]; ring, by rw [hdy0]; ring⟩, ?_, ?_⟩
    · rw [hdx0, hdy0]
      simp [min_eq_left hmax]
    · rw [hdx0, hdy0]
      simpa using hmax
  · rw [if_neg h0]
    have hs0 : 0 ≤ min d MAX_DRAG_DIST / d := div_nonneg (le_min hd0 hmax) hd0
    have hkey : (ax + dx * (min d MAX_DRAG_DIST / d) - ax) ^ 2 +
        (ay + dy * (min d MAX_DRAG_DIST / d) - ay) ^ 2 =
        (min d MAX_DRAG_DIST / d) ^ 2 * (dx * dx + dy * dy) := by ring
    have hdist : Real.sqrt ((ax + dx * (min d MAX_DRAG_DIST / d) - ax) ^ 2 +
        (ay + dy * (min d MAX_DRAG_DIST / d) - ay) ^ 2) = min d MAX_DRAG_DIST := by
      rw [hkey, Real.sqrt_mul (sq_nonneg _), Real.sqrt_sq hs0, ← hd,
        div_mul_cancel₀ _ h0]
    refine ⟨⟨min d MAX_DRAG_DIST / d, hs0, by ring, by ring⟩, ?_, ?_⟩
    · rw [hdist, ← hpow, ← hd]
    · rw [hdist]
      exact min_le_right _ _

/-- C5: for every input and every behaviour of the external AI service —
transport error, parse-proof response text, or a reply whose
`recommendedColor` chain throws — `getStrategicHint` returns the fixed
fallback hint rather than an error, and in general every returned value is
either the fallback hint or a hint built from successfully parsed JSON
(the function is total, so nothing ever escapes to the caller); the
fallback carries the fixed scanning message and rationale. -/
theorem getStrategicHint_fallback_on_failure :
    (∀ (img : String) (ts : List TargetCandidate) (dr : ℤ) (ib : Bool) (e : String),
      getStrategicHint img ts dr ib (.error e) = fallbackHint)
    ∧ (∀ (img : String) (ts : List TargetCandidate) (dr : ℤ) (ib : Bool) (t : String),
        parseSafeJson (if t = "" then "\x7b\x7d" else t) = .error () →
        getStrategicHint img ts dr ib (.ok t) = fallbackHint)
    ∧ (∀ (img : String) (ts : List TargetCandidate) (dr : ℤ) (ib : Bool) (t : String)
        (j : Json),
        parseSafeJson (if t = "" then "\x7b\x7d" else t) = .ok j →
        buildHint j = .error () →
        getStrategicHint img ts dr ib (.ok t) = fallbackHint)
    ∧ (∀ (img : String) (ts : List TargetCandidate) (dr : ℤ) (ib : Bool)
        (r : Except String String),
        getStrategicHint img ts dr ib r = fallbackHint ∨
        ∃ j : Json, buildHint j = .ok (getStrategicHint img ts dr ib r))
    ∧ getStrategicHint "" [] 0 false (.ok "I am unable to analyze this board.") =
        fallbackHint
    ∧ fallbackHint.message = .str "Scanning for ROI..."
    ∧ fallbackHint.rationale =
        .str "Data synchronization in progress. Maintain defensive posture." := by
  refine ⟨fun img ts dr ib e => rfl, ?_, ?_, ?_, rfl, rfl, rfl⟩
  · intro img ts dr ib t h
    simp only [getStrategicHint]
    rw [h]
  · intro img ts dr ib t j hp hb
    simp only [getStrategicHint]
    rw [hp]
    dsimp only
    rw [hb]
  · intro img ts dr ib r
    cases r with
    | error e => exact Or.inl rfl
    | ok t =>
      rcases hp : parseSafeJson (if t = "" then "\x7b\x7d" else t) with e | j
      · exact Or.inl (by simp only [getStrategicHint]; rw [hp])
      · rcases hb : buildHint j with e2 | h
        · exact Or.inl (by
            simp only [getStrategicHint]
            rw [hp]
            dsimp only
            rw [hb])
        · refine Or.inr ⟨j, ?_⟩
          have heq : getStrategicHint img ts dr ib (.ok t) = h := by
            simp only [getStrategicHint]
            rw [hp]
            dsimp only
            rw [hb]
          rw [heq, hb]

/-- C10: on every successful AI response, the hint's `recommendedColor` is
exactly the lowercase form of the string the service supplied — any string
value is accepted and lowercased, with no membership check against the six
palette keys. -/
theorem recommendedColor_lowercased (img : String) (ts : List TargetCandidate)
    (dr : ℤ) (ib : Bool) (t : String) (j : Json) (cstr : String)
    (hparse : parseSafeJson (if t = "" then "\x7b\x7d" else t) = .ok j)
    (hfield : getField j "recommendedColor" = some (.str cstr)) :
    (getStrategicHint img ts dr ib (.ok t)).recommendedColor =
      some (jsToLowerCase cstr) := by
  simp only [getStrategicHint]
  rw [hparse]
  dsimp only
  simp only [buildHint, hfield, optChainToLower]
  rfl

/-- C10 witness: the reply string "RED" — a palette key up to letter case —
is stored lowercased as "red"; no palette-membership check intervenes. -/
theorem recommendedColor_lowercased_witness :
    (getStrategicHint "" [] 0 false
        (.ok "\x7b\"recommendedColor\":\"RED\"\x7d")).recommendedColor =
      some "red" := by
  have h := recommendedColor_lowercased "" [] 0 false
    "\x7b\"recommendedColor\":\"RED\"\x7d"
    (Json.obj [("recommendedColor", Json.str "RED")]) "RED" rfl rfl
  exact h.trans (by decide)

end Slingshot
